import Mathlib

/-!
Verification of `cvdata/split.py`: dataset train/valid/test splitting.

The Python module is shallowly embedded: floats are modelled as exact
rationals (`ℚ`), Python dicts as insertion-ordered association lists,
the file system as an explicit state record, `random.shuffle` as a
shuffle-outcome parameter (an arbitrary function, constrained to be a
permutation where a claim needs it), and raised exceptions as `Except Err`
results paired with the file-system state at the point of the raise.
-/

/-- Characters of the final path component (the text after the last `/`),
as computed by `os.path.basename`. -/
def basenameChars (cs : List Char) : List Char :=
  (cs.reverse.takeWhile (fun c => c != '/')).reverse

/-- Final path component of `p` (`os.path.basename`). -/
def basename (p : String) : String := ⟨basenameChars p.data⟩

/-- Character-level `os.path.join(a, b)` for a single component `b`:
`b` if `b` is absolute, else `a + b` if `a` is empty or ends with `/`,
else `a + "/" + b`. -/
def joinPathChars (a b : List Char) : List Char :=
  if b.head? = some '/' then b
  else if a = [] then b
  else if a.getLast? = some '/' then a ++ b
  else a ++ '/' :: b

/-- Path join, `os.path.join(a, b)`. -/
def joinPath (a b : String) : String := ⟨joinPathChars a.data b.data⟩

/-- Index of the last `'.'` in a file name (Python `name.rfind('.')`),
`none` when there is no dot. -/
def lastDotIdx (cs : List Char) : Option Nat :=
  ((cs.enum.filter (fun p => p.2 == '.')).getLast?).map Prod.fst

/-- Stem of a file name as computed by `pathlib`: the name with its last
extension removed, where an extension must start after position 0 and
before the last character. -/
def stemOfName (name : List Char) : List Char :=
  match lastDotIdx name with
  | some i => if 0 < i ∧ i + 1 < name.length then name.take i else name
  | none => name

/-- Stem of a path, `pathlib.Path(p).stem`. -/
def stem (p : String) : String := ⟨stemOfName (basenameChars p.data)⟩

/-- Suffix test `s.endswith(suf)`. -/
def strEndsWith (s suf : String) : Bool := suf.data.isSuffixOf s.data

/-- Python `round()` on an exact rational: round half to even.
Floats are modelled as exact rationals throughout. -/
def pyround (q : ℚ) : ℤ :=
  if q - ⌊q⌋ < 1/2 then ⌊q⌋
  else if (1:ℚ)/2 < q - ⌊q⌋ then ⌊q⌋ + 1
  else if ⌊q⌋ % 2 = 0 then ⌊q⌋ else ⌊q⌋ + 1

/-- Normalization of a Python slice bound to an index into a list of
length `n`: negative bounds count from the end, bounds are clamped. -/
def pyIdx (n : ℕ) (i : ℤ) : ℕ :=
  if i < 0 then ((n : ℤ) + i).toNat else min i.toNat n

/-- Python slice `l[:b]`. -/
def pySliceTo (l : List α) (b : ℤ) : List α := l.take (pyIdx l.length b)

/-- Python slice `l[a:]`. -/
def pySliceFrom (l : List α) (a : ℤ) : List α := l.drop (pyIdx l.length a)

/-- Python slice `l[a:b]`. -/
def pySlice (l : List α) (a b : ℤ) : List α :=
  (l.take (pyIdx l.length b)).drop (pyIdx l.length a)

/-- Python `dict` with string keys and values: an insertion-ordered
association list with unique keys. -/
abbrev Dict := List (String × String)

/-- Python dict update `d[k] = v`: overwrite in place when the key exists,
else append. -/
def Dict.insertKV : Dict → String → String → Dict
  | [], k, v => [(k, v)]
  | (k', v') :: rest, k, v =>
    if k' = k then (k, v) :: rest else (k', v') :: Dict.insertKV rest k v

/-- Python dict read `d.get(k)`. -/
def Dict.lookup : Dict → String → Option String
  | [], _ => none
  | (k', v) :: rest, k => if k' = k then some v else Dict.lookup rest k

/-- Python `d.keys()`, in insertion order. -/
def Dict.keys (d : Dict) : List String := d.map Prod.fst

/-- Exceptions raised by the module. -/
inductive Err where
  /-- the ValueError raised when the percentages do not sum to 1.0 -/
  | invalidPercentages
  /-- FileNotFoundError from `os.listdir` on a missing directory -/
  | directoryNotFound
  /-- FileNotFoundError from `shutil.copy2` or `shutil.move` on a missing source file -/
  | sourceFileMissing
  /-- SameFileError from `shutil.copy2` when source and destination are the same file -/
  | sameFileError
  /-- KeyError from a dict subscript -/
  | keyError
  deriving DecidableEq

/-- File-system state: regular files (full path to content) and existing
directories (canonical paths, no trailing slash). -/
structure FS where
  files : Dict
  dirs : List String
  deriving DecidableEq

/-- Test `os.path.isfile`. -/
def FS.isfile (fs : FS) (p : String) : Bool := (Dict.lookup fs.files p).isSome

/-- Entry name of path `p` when it lies directly inside directory `d`. -/
def dirChild (d p : String) : Option String :=
  let pre := d.data ++ ['/']
  if pre.isPrefixOf p.data then
    let rest := p.data.drop pre.length
    if rest.isEmpty then none
    else if rest.contains '/' then none
    else some ⟨rest⟩
  else none

/-- Listing `os.listdir(d)`: names of files and subdirectories directly
inside `d`; fails when the directory does not exist.  The operating
system's listing order is unspecified; the model uses the state's stored
order (no claim depends on the order). -/
def FS.listdir (fs : FS) (d : String) : Option (List String) :=
  if fs.dirs.contains d then
    some ((Dict.keys fs.files).filterMap (dirChild d) ++ fs.dirs.filterMap (dirChild d))
  else none

/-- Directory creation `os.makedirs(d, exist_ok=True)` (intermediate
directories are not tracked; no claim depends on them). -/
def makedirs (d : String) (fs : FS) : FS :=
  if fs.dirs.contains d then fs else { fs with dirs := fs.dirs ++ [d] }

/-- Create or overwrite the file at `p` with content `v`. -/
def setFile (files : Dict) (p v : String) : Dict := Dict.insertKV files p v

/-- Delete the file at `p`. -/
def removeFile (files : Dict) (p : String) : Dict :=
  files.filter (fun q => q.1 != p)

/-- Writing a whole file, as `open(p, "w+")` plus `write` (truncates any
existing content). -/
def FS.writeFile (fs : FS) (p content : String) : FS :=
  { fs with files := setFile fs.files p content }

/-- Indexing `map_ids_to_paths(directory, extensions)`.  The directory
listing and the `os.path.isfile` test are read-only inputs and are passed
explicitly. -/
def map_ids_to_paths (directory : String) (files : List String)
    (isfile : String → Bool) (extensions : List String) : Dict :=
  let file_paths := files.map (fun f => joinPath directory f)
  extensions.foldl
    (fun acc ext => file_paths.foldl
      (fun acc fp =>
        if isfile fp && strEndsWith fp ext then Dict.insertKV acc (stem fp) fp else acc)
      acc)
    []

/-- The file paths matched by `map_ids_to_paths`, in iteration order
(extension-major, then listing order). -/
def matchedPaths (directory : String) (files : List String)
    (isfile : String → Bool) (extensions : List String) : List String :=
  extensions.flatMap
    (fun ext => (files.map (fun f => joinPath directory f)).filter
      (fun fp => isfile fp && strEndsWith fp ext))

/-- Two-way split `split_ids_train_valid(ids, train_pct)`.  The source
shuffles the caller's list in place (`random.shuffle(ids)`); the shuffle
outcome is the parameter `sh`, and the third component of the result is
the final state of the caller's `ids` list. -/
def split_ids_train_valid (ids : List String) (train_pct : ℚ)
    (sh : List String → List String) :
    List String × List String × List String :=
  let split_index := pyround (train_pct * (ids.length : ℚ))
  let shuffled := sh ids
  (pySliceTo shuffled split_index, pySliceFrom shuffled split_index, shuffled)

/-- Lines 222-231 of `split.py`, the partitioning core of
`split_train_valid_test`: cut indices from cumulative rounded percentages
of the id count, then slice the shuffled id list. -/
def split_ids_train_valid_test (train_percentage valid_percentage : ℚ)
    (ids : List String) (sh : List String → List String) :
    List String × List String × List String :=
  let final_train_index := pyround (train_percentage * (ids.length : ℚ))
  let final_valid_index :=
    pyround ((train_percentage + valid_percentage) * (ids.length : ℚ))
  let shuffled := sh ids
  (pySliceTo shuffled final_train_index,
   pySlice shuffled final_train_index final_valid_index,
   pySliceFrom shuffled final_valid_index)

/-- Intersection `list(set(images.keys()).intersection(anns.keys()))`.
Python's set iteration order is unspecified; the model keeps the
first-occurrence order of the first key list (no claim depends on the
order, only on the membership). -/
def interIds (images anns : Dict) : List String :=
  (Dict.keys images).dedup.filter (fun k => decide (k ∈ Dict.keys anns))

/-- Relocation `relocate_file(copy_file, src_file_path, dest_dir)` (nested
in `_split_files`): `shutil.copy2` when copying, which raises
SameFileError when source and destination are the same path, else
`shutil.move`, an `os.rename` that is a no-op when source and destination
are the same path.  Metadata is not modelled (no claim depends on it). -/
def relocate_file (copy_file : Bool) (src_file_path dest_dir : String)
    (fs : FS) : Except Err Unit × FS :=
  let file_name := basename src_file_path
  let dest_file_path := joinPath dest_dir file_name
  match Dict.lookup fs.files src_file_path with
  | none => (.error .sourceFileMissing, fs)
  | some content =>
    if copy_file then
      if dest_file_path = src_file_path then (.error .sameFileError, fs)
      else (.ok (), { fs with files := setFile fs.files dest_file_path content })
    else
      (.ok (), { fs with files := setFile (removeFile fs.files src_file_path) dest_file_path content })

/-- Body of the per-id loop of `_split_files`: the annotation file is
relocated first, then the image file; dict subscripts raise KeyError on a
missing key. -/
def relocate_pair (copy_files : Bool) (file_id : String)
    (annotation_paths : Dict) (annotations_dest_dir : String)
    (image_paths : Dict) (images_dest_dir : String) (fs : FS) :
    Except Err Unit × FS :=
  match Dict.lookup annotation_paths file_id with
  | none => (.error .keyError, fs)
  | some apath =>
    match relocate_file copy_files apath annotations_dest_dir fs with
    | (.error e, fs1) => (.error e, fs1)
    | (.ok _, fs1) =>
      match Dict.lookup image_paths file_id with
      | none => (.error .keyError, fs1)
      | some ipath => relocate_file copy_files ipath images_dest_dir fs1

/-- Group relocation `_split_files`: relocate each id's annotation and
image files in list order; the first raised exception aborts the remaining
iterations. -/
def _split_files (copy_files : Bool) (file_ids : List String)
    (annotation_paths : Dict) (annotations_dest_dir : String)
    (image_paths : Dict) (images_dest_dir : String) (fs : FS) :
    Except Err Unit × FS :=
  match file_ids with
  | [] => (.ok (), fs)
  | file_id :: rest =>
    match relocate_pair copy_files file_id annotation_paths annotations_dest_dir image_paths images_dest_dir fs with
    | (.error e, fs1) => (.error e, fs1)
    | (.ok _, fs1) =>
      _split_files copy_files rest annotation_paths annotations_dest_dir image_paths images_dest_dir fs1

/-- Annotation formats, the keys of `_FORMAT_EXTENSIONS`. -/
inductive AnnFormat where
  | coco | darknet | kitti | openimages | pascal
  deriving DecidableEq

/-- The `_FORMAT_EXTENSIONS` table. -/
def formatExtensions : AnnFormat → String
  | .coco => ".json"
  | .darknet => ".txt"
  | .kitti => ".txt"
  | .openimages => ".csv"
  | .pascal => ".xml"

/-- Parsed command-line arguments (the `split_arguments` dict; the source
key of `fmt` is `"format"`). -/
structure SplitArgs where
  annotations_dir : String
  images_dir : String
  train_annotations_dir : String
  train_images_dir : String
  val_annotations_dir : String
  val_images_dir : String
  test_annotations_dir : String
  test_images_dir : String
  train_percentage : ℚ
  valid_percentage : ℚ
  test_percentage : ℚ
  fmt : AnnFormat
  copy_feature : Bool

/-- The six `os.makedirs(..., exist_ok=True)` calls that open
`split_train_valid_test`, in source order. -/
def mkdirsAll (a : SplitArgs) (fs : FS) : FS :=
  makedirs a.test_images_dir
    (makedirs a.val_images_dir
      (makedirs a.train_images_dir
        (makedirs a.test_annotations_dir
          (makedirs a.val_annotations_dir
            (makedirs a.train_annotations_dir fs)))))

/-- Three-way split `split_train_valid_test(split_arguments)`.  The
shuffle outcome is the parameter `sh`; the three id groups are returned
as the value for observation (the Python function returns `None`). -/
def split_train_valid_test (a : SplitArgs) (sh : List String → List String)
    (fs : FS) :
    Except Err (List String × List String × List String) × FS :=
  let fs0 := mkdirsAll a fs
  match FS.listdir fs0 a.images_dir with
  | none => (.error .directoryNotFound, fs0)
  | some image_entries =>
    let images := map_ids_to_paths a.images_dir image_entries (FS.isfile fs0) [".jpg", ".png"]
    match FS.listdir fs0 a.annotations_dir with
    | none => (.error .directoryNotFound, fs0)
    | some ann_entries =>
      let anns := map_ids_to_paths a.annotations_dir ann_entries (FS.isfile fs0) [formatExtensions a.fmt]
      let ids := interIds images anns
      let g := split_ids_train_valid_test a.train_percentage a.valid_percentage ids sh
      match _split_files a.copy_feature g.1 anns a.train_annotations_dir images a.train_images_dir fs0 with
      | (.error e, fs1) => (.error e, fs1)
      | (.ok _, fs1) =>
        match _split_files a.copy_feature g.2.1 anns a.val_annotations_dir images a.val_images_dir fs1 with
        | (.error e, fs2) => (.error e, fs2)
        | (.ok _, fs2) =>
          match _split_files a.copy_feature g.2.2 anns a.test_annotations_dir images a.test_images_dir fs2 with
          | (.error e, fs3) => (.error e, fs3)
          | (.ok _, fs3) => (.ok g, fs3)

/-- Closeness test `math.isclose(a, b)` with the default tolerances
`rel_tol=1e-9`, `abs_tol=0.0`. -/
def isclose (a b : ℚ) : Prop :=
  |a - b| ≤ max ((1 / 1000000000) * max |a| |b|) 0

instance (a b : ℚ) : Decidable (isclose a b) := by unfold isclose; infer_instance

/-- The `__main__` block after argument parsing: check that the three
percentages sum to 1.0 (raise ValueError otherwise), then run the split. -/
def pymain (a : SplitArgs) (sh : List String → List String) (fs : FS) :
    Except Err (List String × List String × List String) × FS :=
  let total_percentage := a.train_percentage + a.valid_percentage + a.test_percentage
  if isclose 1 total_percentage then split_train_valid_test a sh fs
  else (.error .invalidPercentages, fs)

/-- Manifest lines written by `create_split_files`: one
`os.path.join(use_prefix, img_id + img_ext)` line per id. -/
def manifestLines (usePfx img_ext : String) (ids : List String) : String :=
  String.join (ids.map (fun img_id => joinPath usePfx (img_id ++ img_ext) ++ "\n"))

/-- One iteration of the `for img_ext in (".jpg", ".png")` loop of
`create_split_files`.  The source lists the images directory twice (for
images and for `.txt` annotations); the state is unchanged in between, so
the one listing is reused.  The parameter `usePfx` is the source's
`use_prefix` argument. -/
def create_split_files_pass (images_dir usePfx dest_dir : String)
    (train_pct : ℚ) (sh : List String → List String) (img_ext : String)
    (fs : FS) : Except Err (String × String) × FS :=
  match FS.listdir fs images_dir with
  | none => (.error .directoryNotFound, fs)
  | some entries =>
    let images := map_ids_to_paths images_dir entries (FS.isfile fs) [img_ext]
    let anns := map_ids_to_paths images_dir entries (FS.isfile fs) [".txt"]
    let ids := interIds images anns
    let g := split_ids_train_valid ids train_pct sh
    let fs1 := makedirs dest_dir fs
    let train_file_path := joinPath dest_dir "train.txt"
    let fs2 := FS.writeFile fs1 train_file_path (manifestLines usePfx img_ext g.1)
    let valid_file_path := joinPath dest_dir "valid.txt"
    let fs3 := FS.writeFile fs2 valid_file_path (manifestLines usePfx img_ext g.2.1)
    (.ok (train_file_path, valid_file_path), fs3)

/-- Manifest mode `create_split_files(images_dir, use_prefix, dest_dir,
train_pct)`: runs the pass for `.jpg`, then for `.png`.  Each pass opens
`train.txt` and `valid.txt` with mode `"w+"`, which truncates, so the
`.png` pass overwrites the manifests written by the `.jpg` pass. -/
def create_split_files (images_dir usePfx dest_dir : String) (train_pct : ℚ)
    (sh : List String → List String) (fs : FS) :
    Except Err (String × String) × FS :=
  match create_split_files_pass images_dir usePfx dest_dir train_pct sh ".jpg" fs with
  | (.error e, fs1) => (.error e, fs1)
  | (.ok _, fs1) => create_split_files_pass images_dir usePfx dest_dir train_pct sh ".png" fs1

/-! ## Arithmetic facts about Python rounding and slicing -/

theorem pyround_floor_le (q : ℚ) : ⌊q⌋ ≤ pyround q := by
  unfold pyround; split_ifs <;> omega

theorem pyround_le_floor_add_one (q : ℚ) : pyround q ≤ ⌊q⌋ + 1 := by
  unfold pyround; split_ifs <;> omega

theorem pyround_intCast (n : ℤ) : pyround (n : ℚ) = n := by
  unfold pyround
  rw [Int.floor_intCast]
  norm_num

theorem pyround_nonneg {q : ℚ} (h : 0 ≤ q) : 0 ≤ pyround q := by
  have h0 : (0:ℤ) ≤ ⌊q⌋ := Int.floor_nonneg.mpr h
  have h1 := pyround_floor_le q
  omega

theorem pyround_mono {a b : ℚ} (h : a ≤ b) : pyround a ≤ pyround b := by
  have hf : ⌊a⌋ ≤ ⌊b⌋ := Int.floor_mono h
  rcases eq_or_lt_of_le hf with heq | hlt
  · have hr : a - (⌊a⌋ : ℚ) ≤ b - (⌊a⌋ : ℚ) := by linarith
    unfold pyround
    rw [← heq]
    split_ifs <;> first | omega | (exfalso; linarith)
  · have h1 := pyround_le_floor_add_one a
    have h2 := pyround_floor_le b
    omega

theorem pyIdx_mono {a b : ℤ} (ha : 0 ≤ a) (hab : a ≤ b) (n : ℕ) :
    pyIdx n a ≤ pyIdx n b := by
  unfold pyIdx
  rw [if_neg (by omega), if_neg (by omega)]
  exact min_le_min (Int.toNat_le_toNat hab) le_rfl

theorem take_drop_partition {α} (l : List α) (a b : ℕ) (hab : a ≤ b) :
    l.take a ++ ((l.take b).drop a ++ l.drop b) = l := by
  have h1 : (l.take b).take a = l.take a := by
    rw [List.take_take, min_eq_left hab]
  rw [← h1, ← List.append_assoc, List.take_append_drop, List.take_append_drop]

/-! ## Facts about the dict model -/

theorem lookup_insertKV_self (d : Dict) (k v : String) :
    Dict.lookup (Dict.insertKV d k v) k = some v := by
  induction d with
  | nil => simp [Dict.insertKV, Dict.lookup]
  | cons p rest ih =>
    obtain ⟨k', v'⟩ := p
    by_cases h : k' = k
    · simp [Dict.insertKV, h, Dict.lookup]
    · simp [Dict.insertKV, h, Dict.lookup, ih]

theorem lookup_insertKV_ne (d : Dict) (k v k' : String) (h : k ≠ k') :
    Dict.lookup (Dict.insertKV d k v) k' = Dict.lookup d k' := by
  induction d with
  | nil => simp [Dict.insertKV, Dict.lookup, h]
  | cons p rest ih =>
    obtain ⟨k0, v0⟩ := p
    by_cases h0 : k0 = k
    · subst h0
      simp [Dict.insertKV, Dict.lookup, h]
    · simp [Dict.insertKV, h0, Dict.lookup, ih]

theorem lookup_removeFile_self (d : Dict) (p : String) :
    Dict.lookup (removeFile d p) p = none := by
  induction d with
  | nil => rfl
  | cons q rest ih =>
    obtain ⟨k, v⟩ := q
    by_cases h : k = p
    · simpa [removeFile, List.filter_cons, h] using ih
    · simpa [removeFile, List.filter_cons, h, Dict.lookup] using ih

theorem findFirst_append {α} (p : α → Bool) (l1 l2 : List α) :
    (l1 ++ l2).find? p =
      match l1.find? p with
      | some x => some x
      | none => l2.find? p := by
  induction l1 with
  | nil => simp
  | cons x xs ih =>
    by_cases h : p x
    · simp [List.find?_cons_of_pos, h]
    · simp only [List.cons_append, List.find?_cons_of_neg _ h, ih]

theorem lookup_foldl_insert (ws : List String) (d : Dict) (k : String) :
    Dict.lookup (ws.foldl (fun acc fp => Dict.insertKV acc (stem fp) fp) d) k =
      match ws.reverse.find? (fun fp => stem fp == k) with
      | some fp => some fp
      | none => Dict.lookup d k := by
  induction ws generalizing d with
  | nil => simp
  | cons w ws ih =>
    rw [List.foldl_cons, ih, List.reverse_cons, findFirst_append]
    cases hf : ws.reverse.find? (fun fp => stem fp == k) with
    | some fp => rfl
    | none =>
      by_cases hq : stem w = k
      · subst hq
        simp [lookup_insertKV_self]
      · simp [lookup_insertKV_ne _ _ _ _ hq, hq]

theorem foldl_ite_filter {α β} (p : α → Bool) (g : β → α → β) (l : List α)
    (init : β) :
    l.foldl (fun acc x => if p x then g acc x else acc) init =
      (l.filter p).foldl g init := by
  induction l generalizing init with
  | nil => rfl
  | cons x xs ih =>
    by_cases h : p x
    · simp [List.filter_cons, h, ih]
    · simp [List.filter_cons, h, ih]

theorem map_ids_to_paths_eq_foldl (directory : String) (files : List String)
    (isfile : String → Bool) (extensions : List String) :
    map_ids_to_paths directory files isfile extensions =
      (matchedPaths directory files isfile extensions).foldl
        (fun acc fp => Dict.insertKV acc (stem fp) fp) [] := by
  unfold map_ids_to_paths matchedPaths
  generalize ([] : Dict) = init
  induction extensions generalizing init with
  | nil => rfl
  | cons e es ih =>
    rw [List.foldl_cons, List.flatMap_cons, List.foldl_append, foldl_ite_filter]
    exact ih _

/-! ## Facts about path components -/

theorem takeWhile_all {α} (p : α → Bool) (l : List α) (h : ∀ x ∈ l, p x = true) :
    l.takeWhile p = l := by
  induction l with
  | nil => rfl
  | cons x xs ih =>
    have hx := h x (List.mem_cons_self x xs)
    simp [List.takeWhile_cons, hx, ih (fun y hy => h y (List.mem_cons_of_mem _ hy))]

theorem takeWhile_append_all {α} (p : α → Bool) (l1 l2 : List α)
    (h : ∀ x ∈ l1, p x = true) :
    (l1 ++ l2).takeWhile p = l1 ++ l2.takeWhile p := by
  induction l1 with
  | nil => simp
  | cons x xs ih =>
    have hx := h x (List.mem_cons_self x xs)
    simp [List.takeWhile_cons, hx, ih (fun y hy => h y (List.mem_cons_of_mem _ hy))]

theorem basenameChars_no_slash (cs : List Char) : '/' ∉ basenameChars cs := by
  intro hmem
  rw [basenameChars, List.mem_reverse] at hmem
  have := List.mem_takeWhile_imp hmem
  simp at this

theorem basenameChars_of_no_slash (cs : List Char) (h : '/' ∉ cs) :
    basenameChars cs = cs := by
  unfold basenameChars
  rw [takeWhile_all, List.reverse_reverse]
  intro x hx
  rw [List.mem_reverse] at hx
  simp only [bne_iff_ne, ne_eq]
  intro hxe
  exact h (hxe ▸ hx)

theorem basenameChars_append_slash (l f : List Char) (hf : '/' ∉ f) :
    basenameChars (l ++ '/' :: f) = f := by
  unfold basenameChars
  rw [List.reverse_append, List.reverse_cons, List.append_assoc]
  have hall : ∀ x ∈ f.reverse, (x != '/') = true := by
    intro x hx
    rw [List.mem_reverse] at hx
    simp only [bne_iff_ne, ne_eq]
    intro hxe
    exact hf (hxe ▸ hx)
  rw [takeWhile_append_all _ _ _ hall]
  simp

theorem basenameChars_joinPathChars (a f : List Char) (hf : '/' ∉ f) :
    basenameChars (joinPathChars a f) = f := by
  unfold joinPathChars
  split_ifs with h1 h2 h3
  · exfalso
    cases f with
    | nil => simp at h1
    | cons c t =>
      simp at h1
      exact hf (by simp [h1])
  · exact basenameChars_of_no_slash f hf
  · rcases List.eq_nil_or_concat a with rfl | ⟨xs, x, rfl⟩
    · exact absurd rfl h2
    · have hx : x = '/' := by simpa [List.getLast?_concat] using h3
      subst hx
      rw [List.concat_eq_append, List.append_assoc, List.singleton_append]
      exact basenameChars_append_slash xs f hf
  · exact basenameChars_append_slash a f hf

theorem basename_joinPath_basename (d s : String) :
    basename (joinPath d (basename s)) = basename s := by
  have h := basenameChars_joinPathChars d.data (basenameChars s.data)
    (basenameChars_no_slash s.data)
  calc basename (joinPath d (basename s))
      = ⟨basenameChars (joinPathChars d.data (basenameChars s.data))⟩ := rfl
    _ = ⟨basenameChars s.data⟩ := by rw [h]
    _ = basename s := rfl

/-! ## Facts about the file-system model -/

theorem makedirs_files (d : String) (fs : FS) : (makedirs d fs).files = fs.files := by
  unfold makedirs
  split_ifs <;> rfl

theorem mkdirsAll_files (a : SplitArgs) (fs : FS) :
    (mkdirsAll a fs).files = fs.files := by
  unfold mkdirsAll
  simp [makedirs_files]

/-! ## Claim theorems -/

/-- C1: For every nonempty, duplicate-free identifier list, every shuffle
outcome that is a permutation of it, and every percentage triple with each
percentage in `[0, 1]` summing to `1`, the three groups produced by the
partitioning core of `split_train_valid_test` (slices of the shuffled list
at the cumulative rounded boundaries) are pairwise disjoint, their sizes
sum exactly to the identifier count, and the last group receives the
remainder. -/
theorem split_groups_partition
    (p1 p2 p3 : ℚ) (ids t v te : List String) (sh : List String → List String)
    (hne : ids ≠ []) (hnd : ids.Nodup) (hsh : (sh ids).Perm ids)
    (h1a : 0 ≤ p1) (h1b : p1 ≤ 1) (h2a : 0 ≤ p2) (h2b : p2 ≤ 1)
    (h3a : 0 ≤ p3) (h3b : p3 ≤ 1) (hsum : p1 + p2 + p3 = 1)
    (hg : split_ids_train_valid_test p1 p2 ids sh = (t, v, te)) :
    t.Disjoint v ∧ t.Disjoint te ∧ v.Disjoint te ∧
    t.length + v.length + te.length = ids.length ∧
    te.length = ids.length - (t.length + v.length) := by
  have hlen : (sh ids).length = ids.length := hsh.length_eq
  have ha0 : 0 ≤ pyround (p1 * (ids.length : ℚ)) :=
    pyround_nonneg (mul_nonneg h1a (Nat.cast_nonneg _))
  have hab : pyround (p1 * (ids.length : ℚ)) ≤
      pyround ((p1 + p2) * (ids.length : ℚ)) :=
    pyround_mono (mul_le_mul_of_nonneg_right (by linarith) (Nat.cast_nonneg _))
  unfold split_ids_train_valid_test at hg
  simp only [pySliceTo, pySlice, pySliceFrom, hlen, Prod.mk.injEq] at hg
  obtain ⟨ht, hv, hte⟩ := hg
  set a' := pyIdx ids.length (pyround (p1 * (ids.length : ℚ))) with ha'
  set b' := pyIdx ids.length (pyround ((p1 + p2) * (ids.length : ℚ))) with hb'
  have hidx : a' ≤ b' := pyIdx_mono ha0 hab ids.length
  have hdecomp : t ++ (v ++ te) = sh ids := by
    rw [← ht, ← hv, ← hte]
    exact take_drop_partition (sh ids) a' b' hidx
  have hnodup : (t ++ (v ++ te)).Nodup := by
    rw [hdecomp]
    exact hsh.nodup_iff.mpr hnd
  rw [List.nodup_append] at hnodup
  obtain ⟨hndt, hnodup2, hdisj1⟩ := hnodup
  rw [List.nodup_append] at hnodup2
  obtain ⟨hndv, hndte, hdisj23⟩ := hnodup2
  rw [List.disjoint_append_right] at hdisj1
  have hlensum : t.length + (v.length + te.length) = ids.length := by
    have hc := congrArg List.length hdecomp
    simpa [hlen] using hc
  exact ⟨hdisj1.1, hdisj1.2, hdisj23, by omega, by omega⟩

/-- Witness for C1 at a concrete input. -/
theorem split_groups_partition_witness :
    split_ids_train_valid_test (1/2) (1/4) ["a", "b", "c"] (fun l => l) =
      (["a", "b"], [], ["c"]) ∧
    (["a", "b"] : List String).Disjoint [] ∧
    (["a", "b"] : List String).Disjoint ["c"] ∧
    ([] : List String).Disjoint ["c"] ∧
    (["a", "b"] : List String).length + ([] : List String).length +
      (["c"] : List String).length = (["a", "b", "c"] : List String).length ∧
    (["c"] : List String).length = (["a", "b", "c"] : List String).length -
      ((["a", "b"] : List String).length + ([] : List String).length) := by
  have hg : split_ids_train_valid_test (1/2) (1/4) ["a", "b", "c"] (fun l => l) =
      (["a", "b"], [], ["c"]) := by
    have h1 : pyround ((3:ℚ)/2) = 2 := by norm_num [pyround]
    have h2 : pyround ((9:ℚ)/4) = 2 := by norm_num [pyround]
    simp only [split_ids_train_valid_test, List.length_cons, List.length_nil]
    norm_num [h1, h2, pySliceTo, pySlice, pySliceFrom, pyIdx]
    decide
  refine ⟨hg, ?_⟩
  have h := split_groups_partition (1/2) (1/4) (1/4) ["a", "b", "c"]
    ["a", "b"] [] ["c"] (fun l => l) (by decide) (by decide) (by decide)
    (by norm_num) (by norm_num) (by norm_num) (by norm_num) (by norm_num)
    (by norm_num) (by norm_num) hg
  exact ⟨h.1, h.2.1, h.2.2.1, h.2.2.2.1, h.2.2.2.2⟩

/-- C9: For two runs on the same identifier list and the same percentages,
with two possibly different shuffle outcomes, the sizes of the three
groups coincide: the partition sizes depend only on the identifier count
and the percentages, not on the permutation. -/
theorem split_sizes_shuffle_invariant (p1 p2 : ℚ) (ids : List String)
    (sh1 sh2 : List String → List String)
    (h1 : (sh1 ids).Perm ids) (h2 : (sh2 ids).Perm ids) :
    (split_ids_train_valid_test p1 p2 ids sh1).1.length =
      (split_ids_train_valid_test p1 p2 ids sh2).1.length ∧
    (split_ids_train_valid_test p1 p2 ids sh1).2.1.length =
      (split_ids_train_valid_test p1 p2 ids sh2).2.1.length ∧
    (split_ids_train_valid_test p1 p2 ids sh1).2.2.length =
      (split_ids_train_valid_test p1 p2 ids sh2).2.2.length := by
  simp [split_ids_train_valid_test, pySliceTo, pySlice, pySliceFrom,
    h1.length_eq, h2.length_eq]

/-- Witness for C9 at a concrete input. -/
theorem split_sizes_shuffle_invariant_witness :
    ((fun l => l) ["a", "b"] : List String).Perm ["a", "b"] ∧
    (List.reverse ["a", "b"] : List String).Perm ["a", "b"] ∧
    ((split_ids_train_valid_test (1/2) (1/4) ["a", "b"] (fun l => l)).1.length =
      (split_ids_train_valid_test (1/2) (1/4) ["a", "b"] List.reverse).1.length ∧
    (split_ids_train_valid_test (1/2) (1/4) ["a", "b"] (fun l => l)).2.1.length =
      (split_ids_train_valid_test (1/2) (1/4) ["a", "b"] List.reverse).2.1.length ∧
    (split_ids_train_valid_test (1/2) (1/4) ["a", "b"] (fun l => l)).2.2.length =
      (split_ids_train_valid_test (1/2) (1/4) ["a", "b"] List.reverse).2.2.length) :=
  ⟨by decide, by decide,
    split_sizes_shuffle_invariant (1/2) (1/4) ["a", "b"] (fun l => l)
      List.reverse (by decide) (by decide)⟩

/-- C5: `map_ids_to_paths` records identifier to full path for the matched
regular files, scanning extensions in the given order: the lookup of an
identifier returns exactly the path of the last matched file in iteration
order (extension-major, then listing order), so a file matched under a
later extension in the list overwrites a mapping made under an earlier
extension. -/
theorem map_ids_to_paths_last_match (directory : String) (files : List String)
    (isfile : String → Bool) (extensions : List String) (idf : String) :
    Dict.lookup (map_ids_to_paths directory files isfile extensions) idf =
      (matchedPaths directory files isfile extensions).reverse.find?
        (fun fp => stem fp == idf) := by
  rw [map_ids_to_paths_eq_foldl, lookup_foldl_insert]
  cases hcase : (matchedPaths directory files isfile extensions).reverse.find?
      (fun fp => stem fp == idf) <;> rfl

/-- C2: When the three percentages do not sum to 1.0 within the
`math.isclose` tolerance, the run raises the ValueError (modelled as
`Err.invalidPercentages`) by the single upfront check, and the file
system is returned completely untouched: no directory creation, copy or
move happens before or after the failure. -/
theorem pymain_invalid_percentages (a : SplitArgs)
    (sh : List String → List String) (fs : FS)
    (h : ¬ isclose 1 (a.train_percentage + a.valid_percentage + a.test_percentage)) :
    pymain a sh fs = (.error .invalidPercentages, fs) := by
  unfold pymain
  rw [if_neg h]

/-- Witness for C2 at a concrete input. -/
theorem pymain_invalid_percentages_witness :
    ¬ isclose 1 ((1:ℚ)/2 + 1/5 + 1/5) ∧
    pymain ⟨"ad", "id", "ta", "ti", "va", "vi", "sa", "si", 1/2, 1/5, 1/5,
      .pascal, true⟩ (fun l => l) ⟨[], []⟩ =
      (.error .invalidPercentages, ⟨[], []⟩) := by
  have h : ¬ isclose 1 ((1:ℚ)/2 + 1/5 + 1/5) := by
    unfold isclose
    norm_num [abs_of_pos, max_eq_left]
  exact ⟨h, pymain_invalid_percentages _ _ _ h⟩

/-- C4 counterexample: `random.shuffle(ids)` mutates the caller's list in
place, so for the shuffle outcome `List.reverse` (a legitimate
permutation of the input) the caller's list differs from the input after
the call: the claim that the input list is left unchanged is false. -/
theorem split_ids_mutates_caller_list :
    (List.reverse ["a", "b"] : List String).Perm ["a", "b"] ∧
    (split_ids_train_valid ["a", "b"] (1/2) List.reverse).2.2 ≠ ["a", "b"] := by
  exact ⟨by decide, by decide⟩

/-- C4 amended: the call has no side effect beyond consuming entropy and
reordering the caller's list in place to the shuffle outcome; the list
after the call is a permutation of the input (same elements, same
length). -/
theorem split_ids_permutes_caller_list (ids : List String) (train_pct : ℚ)
    (sh : List String → List String) (hsh : (sh ids).Perm ids) :
    ((split_ids_train_valid ids train_pct sh).2.2).Perm ids :=
  hsh

/-- Witness for C4's amended claim at a concrete input. -/
theorem split_ids_permutes_caller_list_witness :
    (List.reverse ["a", "b", "c"] : List String).Perm ["a", "b", "c"] ∧
    ((split_ids_train_valid ["a", "b", "c"] (1/2) List.reverse).2.2).Perm
      ["a", "b", "c"] :=
  ⟨by decide,
    split_ids_permutes_caller_list ["a", "b", "c"] (1/2) List.reverse (by decide)⟩

/-- C6: The identifiers eligible for splitting are exactly the
intersection of the image and annotation index key sets, and an
identifier missing from either index is excluded from each of the three
output groups, without any error being raised. -/
theorem interIds_eligible_intersection (d1 d2 : Dict) (x : String)
    (p1 p2 : ℚ) (sh : List String → List String)
    (hsh : (sh (interIds d1 d2)).Perm (interIds d1 d2)) :
    (x ∈ interIds d1 d2 ↔ x ∈ Dict.keys d1 ∧ x ∈ Dict.keys d2) ∧
    (∀ g, (g = (split_ids_train_valid_test p1 p2 (interIds d1 d2) sh).1 ∨
           g = (split_ids_train_valid_test p1 p2 (interIds d1 d2) sh).2.1 ∨
           g = (split_ids_train_valid_test p1 p2 (interIds d1 d2) sh).2.2) →
      x ∈ g → x ∈ Dict.keys d1 ∧ x ∈ Dict.keys d2) := by
  have hmem : ∀ y, y ∈ interIds d1 d2 ↔ y ∈ Dict.keys d1 ∧ y ∈ Dict.keys d2 := by
    intro y
    simp [interIds, List.mem_filter, List.mem_dedup]
  refine ⟨hmem x, ?_⟩
  intro g hgdef hxg
  have hsub : x ∈ sh (interIds d1 d2) := by
    rcases hgdef with h | h | h
    · subst h
      simp only [split_ids_train_valid_test, pySliceTo] at hxg
      exact List.take_subset _ _ hxg
    · subst h
      simp only [split_ids_train_valid_test, pySlice] at hxg
      exact List.take_subset _ _ (List.drop_subset _ _ hxg)
    · subst h
      simp only [split_ids_train_valid_test, pySliceFrom] at hxg
      exact List.drop_subset _ _ hxg
  exact (hmem x).mp (hsh.mem_iff.mp hsub)

/-- Image index used by the C6 witness. -/
def dImg : Dict := [("x", "d/x.jpg"), ("y", "d/y.jpg"), ("z", "d/z.jpg")]

/-- Annotation index used by the C6 witness. -/
def dAnn : Dict := [("y", "e/y.xml"), ("z", "e/z.xml"), ("w", "e/w.xml")]

/-- Witness for C6 at a concrete input. -/
theorem interIds_eligible_intersection_witness :
    ((fun l => l) (interIds dImg dAnn)).Perm (interIds dImg dAnn) ∧
    (("x" ∈ interIds dImg dAnn ↔ "x" ∈ Dict.keys dImg ∧ "x" ∈ Dict.keys dAnn) ∧
     (∀ g, (g = (split_ids_train_valid_test (7/10) (1/5) (interIds dImg dAnn) (fun l => l)).1 ∨
            g = (split_ids_train_valid_test (7/10) (1/5) (interIds dImg dAnn) (fun l => l)).2.1 ∨
            g = (split_ids_train_valid_test (7/10) (1/5) (interIds dImg dAnn) (fun l => l)).2.2) →
       "x" ∈ g → "x" ∈ Dict.keys dImg ∧ "x" ∈ Dict.keys dAnn)) :=
  ⟨List.Perm.refl _,
    interIds_eligible_intersection dImg dAnn "x" (7/10) (1/5) (fun l => l)
      (List.Perm.refl _)⟩

/-- C7: When the intersection of image and annotation identifiers is
empty, `split_train_valid_test` succeeds without error, all three groups
are empty, and zero file operations are performed: the files component of
the state is untouched (only the six destination directories are
created). -/
theorem split_empty_intersection (a : SplitArgs)
    (sh : List String → List String) (fs : FS) (ies aes : List String)
    (hsh : ∀ l, (sh l).Perm l)
    (hi : FS.listdir (mkdirsAll a fs) a.images_dir = some ies)
    (ha : FS.listdir (mkdirsAll a fs) a.annotations_dir = some aes)
    (hinter : interIds
        (map_ids_to_paths a.images_dir ies (FS.isfile (mkdirsAll a fs)) [".jpg", ".png"])
        (map_ids_to_paths a.annotations_dir aes (FS.isfile (mkdirsAll a fs)) [formatExtensions a.fmt]) = []) :
    split_train_valid_test a sh fs = (.ok ([], [], []), mkdirsAll a fs) ∧
    (mkdirsAll a fs).files = fs.files := by
  have hnil : sh [] = [] := (hsh []).eq_nil
  have hg : split_ids_train_valid_test a.train_percentage a.valid_percentage [] sh =
      ([], [], []) := by
    unfold split_ids_train_valid_test
    rw [hnil]
    simp [pySliceTo, pySlice, pySliceFrom]
  constructor
  · simp only [split_train_valid_test, hi, ha, hinter, hg, _split_files]
  · exact mkdirsAll_files a fs

/-- Arguments used by the C7 witness. -/
def sampleArgs : SplitArgs :=
  ⟨"ad", "id", "ta", "ti", "va", "vi", "sa", "si", 7/10, 1/5, 1/10, .pascal, true⟩

/-- File system used by the C7 witness: both source directories exist and
are empty. -/
def sampleFS : FS := ⟨[], ["id", "ad"]⟩

/-- Witness for C7 at a concrete input. -/
theorem split_empty_intersection_witness :
    (∀ l : List String, ((fun l' => l') l).Perm l) ∧
    FS.listdir (mkdirsAll sampleArgs sampleFS) sampleArgs.images_dir = some [] ∧
    FS.listdir (mkdirsAll sampleArgs sampleFS) sampleArgs.annotations_dir = some [] ∧
    interIds
      (map_ids_to_paths sampleArgs.images_dir [] (FS.isfile (mkdirsAll sampleArgs sampleFS)) [".jpg", ".png"])
      (map_ids_to_paths sampleArgs.annotations_dir [] (FS.isfile (mkdirsAll sampleArgs sampleFS)) [formatExtensions sampleArgs.fmt]) = [] ∧
    (split_train_valid_test sampleArgs (fun l => l) sampleFS =
      (.ok ([], [], []), mkdirsAll sampleArgs sampleFS) ∧
     (mkdirsAll sampleArgs sampleFS).files = sampleFS.files) :=
  ⟨fun l => List.Perm.refl l, rfl, rfl, rfl,
    split_empty_intersection sampleArgs (fun l => l) sampleFS [] []
      (fun l => List.Perm.refl l) rfl rfl rfl⟩

/-- C8 counterexample: in move mode, when the destination directory is the
source file's own directory, the destination path equals the source path
and `shutil.move` is an `os.rename` no-op: the relocation succeeds yet
the source file still exists at its original path, so the claim as
stated (source gone after every successful move) is false. -/
theorem relocate_move_same_dir_keeps_source :
    (relocate_file false "/d/a.txt" "/d" ⟨[("/d/a.txt", "c")], ["/d"]⟩).1 = .ok () ∧
    Dict.lookup ((relocate_file false "/d/a.txt" "/d"
      ⟨[("/d/a.txt", "c")], ["/d"]⟩).2).files "/d/a.txt" = some "c" :=
  ⟨rfl, rfl⟩

/-- C8 amended: for every relocation whose destination path (destination
directory joined with the source basename) differs from the source path:
in copy mode the source file still exists at its original path afterwards
and the destination copy has identical content; in move mode the source
file no longer exists at its original path and the destination holds the
source's content; in both modes the destination file keeps the source's
basename, extension included. -/
theorem relocate_file_copy_move (c : Bool) (src destDir content : String)
    (fs : FS) (hsrc : Dict.lookup fs.files src = some content)
    (hne : joinPath destDir (basename src) ≠ src) :
    (relocate_file c src destDir fs).1 = .ok () ∧
    Dict.lookup ((relocate_file c src destDir fs).2).files
      (joinPath destDir (basename src)) = some content ∧
    (c = true → Dict.lookup ((relocate_file c src destDir fs).2).files src = some content) ∧
    (c = false → Dict.lookup ((relocate_file c src destDir fs).2).files src = none) ∧
    basename (joinPath destDir (basename src)) = basename src := by
  cases c with
  | false =>
    have heval : relocate_file false src destDir fs =
        (.ok (), { fs with files := (setFile (removeFile fs.files src)
          (joinPath destDir (basename src)) content) }) := by
      simp only [relocate_file]
      rw [hsrc]
      simp
    rw [heval]
    refine ⟨rfl, lookup_insertKV_self _ _ _, ?_, ?_, basename_joinPath_basename destDir src⟩
    · intro hc
      exact absurd hc (by simp)
    · intro _
      rw [show Dict.lookup (setFile (removeFile fs.files src)
            (joinPath destDir (basename src)) content) src =
          Dict.lookup (removeFile fs.files src) src from
        lookup_insertKV_ne _ _ _ _ hne]
      exact lookup_removeFile_self _ _
  | true =>
    have heval : relocate_file true src destDir fs =
        (.ok (), { fs with files := (setFile fs.files
          (joinPath destDir (basename src)) content) }) := by
      simp only [relocate_file]
      rw [hsrc]
      simp [hne]
    rw [heval]
    refine ⟨rfl, lookup_insertKV_self _ _ _, ?_, ?_, basename_joinPath_basename destDir src⟩
    · intro _
      rw [show Dict.lookup (setFile fs.files
            (joinPath destDir (basename src)) content) src =
          Dict.lookup fs.files src from
        lookup_insertKV_ne _ _ _ _ hne]
      exact hsrc
    · intro hc
      exact absurd hc (by simp)

/-- Witness for C8's amended claim at a concrete input (move mode). -/
theorem relocate_file_copy_move_witness :
    Dict.lookup [("/s/a.txt", "c")] "/s/a.txt" = some "c" ∧
    joinPath "/d" (basename "/s/a.txt") ≠ "/s/a.txt" ∧
    ((relocate_file false "/s/a.txt" "/d" ⟨[("/s/a.txt", "c")], []⟩).1 = .ok () ∧
     Dict.lookup ((relocate_file false "/s/a.txt" "/d"
       ⟨[("/s/a.txt", "c")], []⟩).2).files (joinPath "/d" (basename "/s/a.txt")) = some "c" ∧
     (false = true → Dict.lookup ((relocate_file false "/s/a.txt" "/d"
       ⟨[("/s/a.txt", "c")], []⟩).2).files "/s/a.txt" = some "c") ∧
     (false = false → Dict.lookup ((relocate_file false "/s/a.txt" "/d"
       ⟨[("/s/a.txt", "c")], []⟩).2).files "/s/a.txt" = none) ∧
     basename (joinPath "/d" (basename "/s/a.txt")) = basename "/s/a.txt") :=
  ⟨rfl, by decide,
    relocate_file_copy_move false "/s/a.txt" "/d" "c" ⟨[("/s/a.txt", "c")], []⟩
      rfl (by decide)⟩

/-- C10: `_split_files` processes identifiers in list order; for each
identifier the annotation file is relocated strictly before the image
file, and the first failure propagates immediately with the state at the
point of failure, so earlier identifiers are fully relocated, later
identifiers are untouched, and when the annotation relocation of an
identifier fails, that identifier's image file is not relocated. -/
theorem split_files_order (c : Bool) (pre : List String) (x : String)
    (post : List String) (ann img : Dict) (annDir imgDir : String) (fs : FS) :
    (_split_files c (pre ++ x :: post) ann annDir img imgDir fs =
      match _split_files c pre ann annDir img imgDir fs with
      | (.error e, fs1) => (.error e, fs1)
      | (.ok _, fs1) =>
        match relocate_pair c x ann annDir img imgDir fs1 with
        | (.error e, fs2) => (.error e, fs2)
        | (.ok _, fs2) => _split_files c post ann annDir img imgDir fs2) ∧
    (∀ (fsa fsb : FS) (apath : String) (e : Err),
      Dict.lookup ann x = some apath →
      relocate_file c apath annDir fsa = (.error e, fsb) →
      relocate_pair c x ann annDir img imgDir fsa = (.error e, fsb)) := by
  constructor
  · induction pre generalizing fs with
    | nil =>
      simp only [List.nil_append, _split_files]
    | cons y ys ih =>
      simp only [List.cons_append, _split_files]
      cases hy : relocate_pair c y ann annDir img imgDir fs with
      | mk r fs1 =>
        cases r with
        | error e => rfl
        | ok u => exact ih fs1
  · intro fsa fsb apath e hl hr
    simp only [relocate_pair, hl, hr]

/-- Witness for C10 at a concrete input: the annotation relocation fails
because the source file is absent, and the loop body propagates exactly
that failure and state. -/
theorem split_files_order_witness :
    Dict.lookup [("x", "/s/x.xml")] "x" = some "/s/x.xml" ∧
    relocate_file true "/s/x.xml" "/a" ⟨[], []⟩ = (.error .sourceFileMissing, ⟨[], []⟩) ∧
    relocate_pair true "x" [("x", "/s/x.xml")] "/a" [("x", "/s/x.jpg")] "/i" ⟨[], []⟩ =
      (.error .sourceFileMissing, ⟨[], []⟩) :=
  ⟨rfl, rfl,
    (split_files_order true [] "x" [] [("x", "/s/x.xml")] [("x", "/s/x.jpg")]
      "/a" "/i" ⟨[], []⟩).2 ⟨[], []⟩ ⟨[], []⟩ "/s/x.xml" .sourceFileMissing rfl rfl⟩

theorem create_split_files_pass_eval (images_dir usePfx dest_dir : String)
    (train_pct : ℚ) (sh : List String → List String) (img_ext : String)
    (fs : FS) (entries t v rest : List String)
    (he : FS.listdir fs images_dir = some entries)
    (hg : split_ids_train_valid
        (interIds (map_ids_to_paths images_dir entries (FS.isfile fs) [img_ext])
          (map_ids_to_paths images_dir entries (FS.isfile fs) [".txt"]))
        train_pct sh = (t, v, rest)) :
    create_split_files_pass images_dir usePfx dest_dir train_pct sh img_ext fs =
      (.ok (joinPath dest_dir "train.txt", joinPath dest_dir "valid.txt"),
       FS.writeFile
         (FS.writeFile (makedirs dest_dir fs) (joinPath dest_dir "train.txt")
           (manifestLines usePfx img_ext t))
         (joinPath dest_dir "valid.txt") (manifestLines usePfx img_ext v)) := by
  simp only [create_split_files_pass, he, hg]

/-- Images directory for the C3 run: identifier `a` has a `.jpg` image and
a paired `.txt` annotation, identifier `b` has a `.png` image and a paired
`.txt` annotation. -/
def bugFS : FS :=
  ⟨[("img/a.jpg", ""), ("img/a.txt", ""), ("img/b.png", ""), ("img/b.txt", "")],
   ["img"]⟩

/-- State after the `.jpg` pass of `create_split_files` on `bugFS`. -/
def bugFS1 : FS :=
  ⟨[("img/a.jpg", ""), ("img/a.txt", ""), ("img/b.png", ""), ("img/b.txt", ""),
    ("out/train.txt", "data/a.jpg\n"), ("out/valid.txt", "")], ["img", "out"]⟩

/-- State after the `.png` pass of `create_split_files` on `bugFS1`: the
manifests written by the `.jpg` pass have been overwritten. -/
def bugFS2 : FS :=
  ⟨[("img/a.jpg", ""), ("img/a.txt", ""), ("img/b.png", ""), ("img/b.txt", ""),
    ("out/train.txt", "data/b.png\n"), ("out/valid.txt", "")], ["img", "out"]⟩

/-- C3 (code bug exhibited by evaluation): on a directory where identifier
`a` has a `.jpg` image with a paired annotation and identifier `b` has a
`.png` image with a paired annotation, with `train_pct = 1` (so every
eligible identifier belongs to the training manifest), the final
`train.txt` contains only the `.png` line `data/b.png` and `valid.txt` is
empty: identifier `a`, which has both an image and a paired annotation,
appears in neither manifest, because the `.png` pass reopens both
manifests with mode `"w+"` and overwrites the `.jpg` pass's lines. -/
theorem create_split_files_overwrites_jpg_manifest :
    FS.isfile bugFS "img/a.jpg" = true ∧
    FS.isfile bugFS "img/a.txt" = true ∧
    create_split_files "img" "data" "out" 1 (fun l => l) bugFS =
      (.ok ("out/train.txt", "out/valid.txt"), bugFS2) ∧
    Dict.lookup bugFS2.files "out/train.txt" = some "data/b.png\n" ∧
    Dict.lookup bugFS2.files "out/valid.txt" = some "" := by
  have hsplit1 : split_ids_train_valid
      (interIds
        (map_ids_to_paths "img" ["a.jpg", "a.txt", "b.png", "b.txt"] (FS.isfile bugFS) [".jpg"])
        (map_ids_to_paths "img" ["a.jpg", "a.txt", "b.png", "b.txt"] (FS.isfile bugFS) [".txt"]))
      1 (fun l => l) = (["a"], [], ["a"]) := by
    have hids : interIds
        (map_ids_to_paths "img" ["a.jpg", "a.txt", "b.png", "b.txt"] (FS.isfile bugFS) [".jpg"])
        (map_ids_to_paths "img" ["a.jpg", "a.txt", "b.png", "b.txt"] (FS.isfile bugFS) [".txt"]) =
        ["a"] := rfl
    rw [hids]
    have h1 : pyround (1:ℚ) = 1 := by norm_num [pyround]
    simp only [split_ids_train_valid, List.length_cons, List.length_nil]
    norm_num [h1, pySliceTo, pySliceFrom, pyIdx]
  have hsplit2 : split_ids_train_valid
      (interIds
        (map_ids_to_paths "img" ["a.jpg", "a.txt", "b.png", "b.txt"] (FS.isfile bugFS1) [".png"])
        (map_ids_to_paths "img" ["a.jpg", "a.txt", "b.png", "b.txt"] (FS.isfile bugFS1) [".txt"]))
      1 (fun l => l) = (["b"], [], ["b"]) := by
    have hids : interIds
        (map_ids_to_paths "img" ["a.jpg", "a.txt", "b.png", "b.txt"] (FS.isfile bugFS1) [".png"])
        (map_ids_to_paths "img" ["a.jpg", "a.txt", "b.png", "b.txt"] (FS.isfile bugFS1) [".txt"]) =
        ["b"] := rfl
    rw [hids]
    have h1 : pyround (1:ℚ) = 1 := by norm_num [pyround]
    simp only [split_ids_train_valid, List.length_cons, List.length_nil]
    norm_num [h1, pySliceTo, pySliceFrom, pyIdx]
  have hpass1 : create_split_files_pass "img" "data" "out" 1 (fun l => l) ".jpg" bugFS =
      (.ok ("out/train.txt", "out/valid.txt"), bugFS1) := by
    have h := create_split_files_pass_eval "img" "data" "out" 1 (fun l => l) ".jpg"
      bugFS ["a.jpg", "a.txt", "b.png", "b.txt"] ["a"] [] ["a"] rfl hsplit1
    rw [h]
    rfl
  have hpass2 : create_split_files_pass "img" "data" "out" 1 (fun l => l) ".png" bugFS1 =
      (.ok ("out/train.txt", "out/valid.txt"), bugFS2) := by
    have h := create_split_files_pass_eval "img" "data" "out" 1 (fun l => l) ".png"
      bugFS1 ["a.jpg", "a.txt", "b.png", "b.txt"] ["b"] [] ["b"] rfl hsplit2
    rw [h]
    rfl
  refine ⟨rfl, rfl, ?_, rfl, rfl⟩
  simp only [create_split_files, hpass1, hpass2]
